import Mathlib

/-!
Shallow embedding of `syspagen.c` (phoenix-rtos-hostutils), the tool that
compiles plo-style scripts into a binary syspage image.

Modelling conventions:
* C strings (script lines, command tokens, stored names) are `List Char`;
  tokens produced by the tokenizer never contain a NUL byte, so `strncpy`
  truncation is `List.take`.
* Machine integers (`unsigned long`, `size_t`, `addr_t`) are `Nat`; `strtoul`
  clamps at `2^64 - 1` on overflow as glibc does on LP64 hosts, and the
  `unsigned int` console field is reduced `% 2^32` at the assignment.
* The arena buffer is represented by its high-water mark (`syspage->size`);
  records live in Lean lists kept in the circular lists' head-to-tail order
  (the C code only ever inserts at the tail, i.e. before the list head).
* `sizeof(syspage_t)`, `sizeof(syspage_map_t)`, `sizeof(syspage_prog_t)` and
  the `mAttr*` bit values come from `syspage.h`, which is not part of the
  sources; they are configuration parameters of the model (the claims do not
  depend on their concrete values), with representative power-of-two bits for
  the attribute flags.
* A C function that can fail (returns a negative value or a NULL/0 pointer)
  becomes an `Option`-valued function; `none` both signals the failure and
  reflects that the failed call's mutations are unobservable, because every
  caller aborts the whole run on failure.
-/

/-- ALIGN_ADDR(addr, align): for the power-of-two alignment used by the code
(8 = sizeof(long long)), the C bit mask `(addr + (align-1)) & ~(align-1)`
clears the low bits, i.e. subtracts the remainder of `addr + (align-1)`. -/
def alignAddr (addr align : Nat) : Nat :=
  if align = 0 then addr else (addr + (align - 1)) - ((addr + (align - 1)) % align)

/-- SIZE_CMD_ARGV: 10 arguments + 1 terminating NULL pointer. -/
def SIZE_CMD_ARGV : Nat := 10 + 1

/-- SIZE_CMD_ARG_LINE: capacity of the flat argument buffer. -/
def SIZE_CMD_ARG_LINE : Nat := 181

/-- C `isspace` on the default locale (ASCII). -/
def isSpaceC (c : Char) : Bool :=
  c == ' ' || c == '\t' || c == '\n' || c == '\x0b' || c == '\x0c' || c == '\r'

/-- C `isblank`: space and horizontal tab. -/
def isBlankC (c : Char) : Bool :=
  c == ' ' || c == '\t'

/-- C `isgraph`: printable characters other than space (0x21..0x7e). -/
def isGraphC (c : Char) : Bool :=
  33 ≤ c.toNat && c.toNat ≤ 126

/-- Value of a hexadecimal digit character, 99 (out of range) otherwise. -/
def digitVal (c : Char) : Nat :=
  if 48 ≤ c.toNat && c.toNat ≤ 57 then c.toNat - 48
  else if 97 ≤ c.toNat && c.toNat ≤ 102 then c.toNat - 87
  else if 65 ≤ c.toNat && c.toNat ≤ 70 then c.toNat - 55
  else 99

/-- Whether `c` is a digit of the given base (bases 8, 10, 16 are used). -/
def isDigitIn (base : Nat) (c : Char) : Bool :=
  digitVal c < base

/-- Greedy digit scan of `strtoul`: consume digits of `base`, accumulating the
value; return the value and the first unconsumed suffix. -/
def parseDigitsAux (base : Nat) : List Char → Nat → Nat × List Char
  | [], acc => (acc, [])
  | c :: rest, acc =>
    if isDigitIn base c then parseDigitsAux base rest (acc * base + digitVal c)
    else (acc, c :: rest)

/-- Result of `strtoul`: the converted value and the suffix `*endptr` points
into. -/
structure StrtoulRes where
  val : Nat
  rest : List Char
  deriving DecidableEq

/-- Finish a successful conversion: clamp to ULONG_MAX on overflow, negate in
the unsigned type on a leading minus sign. -/
def strtoulFin (neg : Bool) (v : Nat) (rest : List Char) : StrtoulRes :=
  let m := if 2 ^ 64 ≤ v then 2 ^ 64 - 1
           else if neg then (2 ^ 64 - v % 2 ^ 64) % 2 ^ 64 else v
  ⟨m, rest⟩

/-- Body of `strtoul(s, end, 0)` after whitespace/sign handling: base
detection (`0x` = hex, leading `0` = octal, else decimal) and digit scan.
`orig` is the original pointer, returned as `endptr` when no conversion is
performed. -/
def strtoulBody (orig : List Char) (neg : Bool) : List Char → StrtoulRes
  | [] => ⟨0, orig⟩
  | c :: t =>
    if c = '0' then
      match t with
      | [] => strtoulFin neg 0 []
      | x :: t2 =>
        if x = 'x' ∨ x = 'X' then
          match t2 with
          | d :: _ =>
            if isDigitIn 16 d then
              let p := parseDigitsAux 16 t2 0
              strtoulFin neg p.1 p.2
            else strtoulFin neg 0 (x :: t2)
          | [] => strtoulFin neg 0 [x]
        else
          let p := parseDigitsAux 8 t 0
          strtoulFin neg p.1 p.2
    else if isDigitIn 10 c then
      let p := parseDigitsAux 10 (c :: t) 0
      strtoulFin neg p.1 p.2
    else ⟨0, orig⟩

/-- C `strtoul(s, &end, 0)`: skip whitespace, optional sign, base detection,
greedy digit scan; when no digits are consumed the value is 0 and `endptr`
is the original pointer. -/
def sysgen_strtoul (s : List Char) : StrtoulRes :=
  match s.dropWhile isSpaceC with
  | [] => strtoulBody s false []
  | c :: t =>
    if c = '-' then strtoulBody s true t
    else if c = '+' then strtoulBody s false t
    else strtoulBody s false (c :: t)

/-- struct phfs_alias_t: host-side alias record (name truncated to 31 bytes
by `strncpy` plus forced terminator). -/
structure phfs_alias_t where
  name : List Char
  addr : Nat
  size : Nat
  deriving DecidableEq

/-- syspage_map_t, as used by syspagen: id, out-of-line name, half-open
address interval, attribute mask. The circular next/prev links are
represented by the position in the state's map list. -/
structure syspage_map_t where
  id : Nat
  name : List Char
  start : Nat
  end_ : Nat
  attr : Nat
  deriving DecidableEq

/-- syspage_prog_t, as used by syspagen: start/end copied from the alias,
instruction/data map-id arrays (uint8_t entries) and the argv byte sequence
(optional 'X' marker, verbatim text, NUL terminator). -/
structure syspage_prog_t where
  start : Nat
  end_ : Nat
  imaps : List Nat
  dmaps : List Nat
  argv : List Char
  deriving DecidableEq

/-- Build configuration (`sysgen_common` fields fixed by `main`) plus the
record sizes taken from the absent `syspage.h` header. -/
structure SysgenConfig where
  pkernel : Nat
  offs : Nat
  maxsz : Nat
  szSyspage : Nat
  szMap : Nat
  szProg : Nat
  deriving DecidableEq

/-- Mutable build state: header fields of `syspage_t` (hs.imgsz, size,
console) plus the two circular registries and the host-side alias list
(most recent first, as built by LIST_INSERT_HEAD). -/
structure SysgenState where
  imgsz : Nat
  size : Nat
  console : Nat
  maps : List syspage_map_t
  progs : List syspage_prog_t
  aliases : List phfs_alias_t
  deriving DecidableEq

/-- Map attribute bits (values live in the absent `syspage.h`; only their
distinctness matters to the model). -/
def mAttrRead : Nat := 1

def mAttrWrite : Nat := 2

def mAttrExec : Nat := 4

def mAttrShareable : Nat := 8

def mAttrCacheable : Nat := 16

def mAttrBufferable : Nat := 32

/-- flagSyspageExec. -/
def flagSyspageExec : Nat := 1

/-- sysgen_buffAlloc: align the candidate new syspage size to 8 bytes; fail
(returning no pointer and leaving the state untouched) when it meets or
exceeds `maxsz`; otherwise hand out the execution address of the old mark
and advance the mark. -/
def sysgen_buffAlloc (cfg : SysgenConfig) (st : SysgenState) (sz : Nat) :
    Option (Nat × SysgenState) :=
  if cfg.maxsz ≤ alignAddr (st.size + sz) 8 then none
  else some (st.size + cfg.pkernel + cfg.offs,
    { st with size := alignAddr (st.size + sz) 8 })

/-- sysgen_aliasFind: scan the alias list from the head (most recently
defined first), return the first record whose stored name equals `name`. -/
def sysgen_aliasFind (aliases : List phfs_alias_t) (name : List Char) :
    Option phfs_alias_t :=
  aliases.find? (fun a => a.name == name)

/-- sysgen_cmdAlias: `alias <name> <addr> <size>`; both numbers must consume
their whole token; the stored name is truncated to 31 characters; the
header's image size is raised to cover `addr + size`; the record address is
rebased by `pkernel` and pushed at the head of the alias list. -/
def sysgen_cmdAlias (cfg : SysgenConfig) (st : SysgenState)
    (argv : List (List Char)) : Option SysgenState :=
  match argv with
  | [_, nameTok, addrTok, sizeTok] =>
    let ra := sysgen_strtoul addrTok
    let rs := sysgen_strtoul sizeTok
    if ra.rest ≠ [] ∨ rs.rest ≠ [] then none
    else
      some { st with
        imgsz := if st.imgsz < ra.val + rs.val then ra.val + rs.val else st.imgsz,
        aliases := ⟨nameTok.take 31, ra.val + cfg.pkernel, rs.val⟩ :: st.aliases }
  | _ => none

/-- sysgen_mapOverlapping: true when `[start,end)` meets some existing map's
interval or `name` equals some existing map's name (the C function walks the
whole circular list and reports -1 on a hit). -/
def sysgen_mapOverlapping (maps : List syspage_map_t) (name : List Char)
    (start end_ : Nat) : Bool :=
  maps.any (fun m => (decide (m.start < end_) && decide (start < m.end_)) ||
    m.name == name)

/-- Id given to a newly linked map: 0 for the first map, otherwise the tail
map's id (the head's `prev`) plus one. -/
def mapNextId (maps : List syspage_map_t) : Nat :=
  match maps.getLast? with
  | none => 0
  | some tailMap => tailMap.id + 1

/-- sysgen_mapAdd: allocate the map record and its name bytes from the arena
(either failure aborts), then link the record at the tail of the circular
list with the successor id. -/
def sysgen_mapAdd (cfg : SysgenConfig) (st : SysgenState) (mapName : List Char)
    (start end_ attr : Nat) : Option SysgenState :=
  match sysgen_buffAlloc cfg st cfg.szMap with
  | none => none
  | some (_, st1) =>
    match sysgen_buffAlloc cfg st1 (mapName.length + 1) with
    | none => none
    | some (_, st2) =>
      some { st2 with
        maps := st2.maps ++ [⟨mapNextId st2.maps, mapName, start, end_, attr⟩] }

/-- sysgen_strAttr2ui: fold the attribute letters into a bit mask; any letter
outside `rwxscb` fails. -/
def sysgen_strAttr2ui : List Char → Option Nat
  | [] => some 0
  | c :: rest =>
    let f? : Option Nat :=
      if c == 'r' then some mAttrRead
      else if c == 'w' then some mAttrWrite
      else if c == 'x' then some mAttrExec
      else if c == 's' then some mAttrShareable
      else if c == 'c' then some mAttrCacheable
      else if c == 'b' then some mAttrBufferable
      else none
    match f? with
    | none => none
    | some f =>
      match sysgen_strAttr2ui rest with
      | none => none
      | some acc => some (f ||| acc)

/-- sysgen_cmdMap: `map <name> <start> <end> <attrs>`; parse both addresses
(whole-token), encode the attributes, reject on overlap or duplicate name,
then add the map. -/
def sysgen_cmdMap (cfg : SysgenConfig) (st : SysgenState)
    (argv : List (List Char)) : Option SysgenState :=
  match argv with
  | [_, nameTok, startTok, endTok, attrTok] =>
    let r1 := sysgen_strtoul startTok
    if r1.rest ≠ [] then none
    else
      let r2 := sysgen_strtoul endTok
      if r2.rest ≠ [] then none
      else
        match sysgen_strAttr2ui attrTok with
        | none => none
        | some attr =>
          if sysgen_mapOverlapping st.maps nameTok r1.val r2.val then none
          else sysgen_mapAdd cfg st nameTok r1.val r2.val attr
  | _ => none

/-- sysgen_mapsParse: split a `;`-separated list in place; a string with N
separators yields N+1 names (empty names included). -/
def sysgen_mapsParse : List Char → List (List Char)
  | [] => [[]]
  | c :: rest =>
    let r := sysgen_mapsParse rest
    if c == ';' then [] :: r
    else
      match r with
      | h :: t => (c :: h) :: t
      | [] => [[c]]

/-- sysgen_mapNameResolve: linear scan of the map list from the head for a
name match, yielding the map's id. -/
def sysgen_mapNameResolve (maps : List syspage_map_t) (name : List Char) :
    Option Nat :=
  (maps.find? (fun m => m.name == name)).map (fun m => m.id)

/-- sysgen_mapsAdd2Prog: resolve each name to an id (stored into a `uint8_t`
array, hence `% 256`), failing on the first unresolved name. -/
def sysgen_mapsAdd2Prog (maps : List syspage_map_t) :
    List (List Char) → Option (List Nat)
  | [] => some []
  | n :: ns =>
    match sysgen_mapNameResolve maps n with
    | none => none
    | some id =>
      match sysgen_mapsAdd2Prog maps ns with
      | none => none
      | some ids => some (id % 256 :: ids)

/-- sysgen_appAdd: resolve the alias, split the map-name lists, allocate the
program record, the two id arrays and the argv bytes, resolve the map names,
copy start/end from the alias and link the program at the tail. -/
def sysgen_appAdd (cfg : SysgenConfig) (st : SysgenState)
    (name imaps dmaps appArgv : List Char) (flags : Nat) : Option SysgenState :=
  match sysgen_aliasFind st.aliases name with
  | none => none
  | some alias_ =>
    let isExec : Nat := if flags &&& flagSyspageExec ≠ 0 then 1 else 0
    let imapNames := sysgen_mapsParse imaps
    let dmapNames := sysgen_mapsParse dmaps
    let argvSz := isExec + appArgv.length + 1
    match sysgen_buffAlloc cfg st cfg.szProg with
    | none => none
    | some (_, st1) =>
      match sysgen_buffAlloc cfg st1 dmapNames.length with
      | none => none
      | some (_, st2) =>
        match sysgen_buffAlloc cfg st2 imapNames.length with
        | none => none
        | some (_, st3) =>
          match sysgen_buffAlloc cfg st3 argvSz with
          | none => none
          | some (_, st4) =>
            match sysgen_mapsAdd2Prog st4.maps imapNames with
            | none => none
            | some iIds =>
              match sysgen_mapsAdd2Prog st4.maps dmapNames with
              | none => none
              | some dIds =>
                let argvBytes :=
                  (if isExec = 1 then ['X'] else []) ++ appArgv ++ ['\x00']
                some { st4 with
                  progs := st4.progs ++
                    [⟨alias_.addr, alias_.addr + alias_.size, iIds, dIds, argvBytes⟩] }

/-- sysgen_cmdApp: `app <device> [-x] <name;argv> <imaps> <dmaps>` (argc 5 or
6); the optional flag must be exactly `-x`/`-X`; the program name is the
name+argv token up to the first `;`. -/
def sysgen_cmdApp (cfg : SysgenConfig) (st : SysgenState)
    (argv : List (List Char)) : Option SysgenState :=
  let argc := argv.length
  if argc < 5 ∨ 6 < argc then none
  else
    match argv.get? 2 with
    | none => none
    | some a2 =>
      let fi? : Option (Nat × Nat) :=
        match a2 with
        | '-' :: rest =>
          match rest with
          | [c] =>
            if Char.ofNat (c.toNat ||| 0x20) = 'x' then some (flagSyspageExec, 3)
            else none
          | _ => none
        | _ => some (0, 2)
      match fi? with
      | none => none
      | some (flags, argvID) =>
        if argvID ≠ argc - 3 then none
        else
          match argv.get? argvID, argv.get? (argvID + 1), argv.get? (argvID + 2) with
          | some appArgv, some imaps, some dmaps =>
            let name := appArgv.takeWhile (fun c => c ≠ ';')
            sysgen_appAdd cfg st name imaps dmaps appArgv flags
          | _, _, _ => none

/-- sysgen_cmdConsole: `console <major>.<minor>`; the first `strtoul` must
stop exactly at a dot, the second must consume the remainder; only the minor
number (an `unsigned int`) is stored in the header. -/
def sysgen_cmdConsole (st : SysgenState) (argv : List (List Char)) :
    Option SysgenState :=
  match argv with
  | [_, tok] =>
    let r1 := sysgen_strtoul tok
    match r1.rest with
    | '.' :: t =>
      let r2 := sysgen_strtoul t
      if r2.rest = [] then some { st with console := r2.val % 2 ^ 32 } else none
    | _ => none
  | _ => none

/-- The tokenizer loop of sysgen_parseArgLine, one character at a time.
`cur = none` means outside a token, `cur = some tk` means inside a token with
the (reversed) characters `tk` copied so far. `bufRem` is the free space left
in the flat argument buffer, `argc` the number of finished tokens. Blanks
separate tokens, any other whitespace terminates the line, a NUL terminates
the line, the argument-vector and buffer capacities are enforced, and a
non-graphic non-space character makes the C loop spin on empty tokens until
one of the capacity errors fires (hence `none`). -/
def sysgen_tokenize (argvsz : Nat) :
    List Char → Nat → Nat → Option (List Char) → Option (List (List Char))
  | [], _, _, none => some []
  | [], bufRem, _, some cur =>
    if bufRem = 0 then none else some [cur.reverse]
  | c :: rest, bufRem, argc, none =>
    if c = '\x00' then some []
    else if isBlankC c then sysgen_tokenize argvsz rest bufRem argc none
    else if isSpaceC c then some []
    else if argvsz ≤ argc + 1 then none
    else if isGraphC c then
      if bufRem = 0 then none
      else sysgen_tokenize argvsz rest (bufRem - 1) argc (some [c])
    else none
  | c :: rest, bufRem, argc, some cur =>
    if isGraphC c then
      if bufRem = 0 then none
      else sysgen_tokenize argvsz rest (bufRem - 1) argc (some (c :: cur))
    else if bufRem = 0 then none
    else if c = '\x00' then some [cur.reverse]
    else if isBlankC c then
      (sysgen_tokenize argvsz rest (bufRem - 1) (argc + 1) none).map
        (fun toks => cur.reverse :: toks)
    else if isSpaceC c then some [cur.reverse]
    else none

/-- sysgen_parseArgLine with the fixed buffer sizes used by
sysgen_parseScript; `none` is a negative return (EINVAL/ENOMEM), `some toks`
a successful parse into `argc = toks.length` arguments. -/
def sysgen_parseArgLine (line : List Char) : Option (List (List Char)) :=
  sysgen_tokenize SIZE_CMD_ARGV line SIZE_CMD_ARG_LINE 0 none

/-- Shorthand for string literals used as C strings. -/
def toL (s : String) : List Char := s.toList

/-- The command table `cmds` and the dispatch loop of sysgen_parseScript: run
the matching command on the tokens; a line whose first token matches no
table entry falls through the loop and is ignored. -/
def sysgen_runCmd (cfg : SysgenConfig) (st : SysgenState)
    (tokens : List (List Char)) : Option SysgenState :=
  match tokens with
  | [] => some st
  | t :: _ =>
    if t = toL "alias" then sysgen_cmdAlias cfg st tokens
    else if t = toL "map" then sysgen_cmdMap cfg st tokens
    else if t = toL "app" then sysgen_cmdApp cfg st tokens
    else if t = toL "console" then sysgen_cmdConsole st tokens
    else some st

/-- sysgen_parseScript over the list of lines produced by `getline` (each
line keeps its trailing newline). An empty line buffer or a line starting
with a NUL byte stops processing successfully; a tokenizer error or a
failing command aborts; lines with no tokens, and lines whose command is
unknown, are skipped. -/
def sysgen_parseScript (cfg : SysgenConfig) (st : SysgenState) :
    List (List Char) → Option SysgenState
  | [] => some st
  | line :: rest =>
    if line = [] ∨ line.head? = some '\x00' then some st
    else
      match sysgen_parseArgLine line with
      | none => none
      | some [] => sysgen_parseScript cfg st rest
      | some (t :: ts) =>
        match sysgen_runCmd cfg st (t :: ts) with
        | none => none
        | some st' => sysgen_parseScript cfg st' rest

/-- The build state set up by `main` before any script runs: zeroed buffer
(calloc), `syspage->size = ALIGN_ADDR(sizeof(syspage_t), 8)`, empty alias
list. -/
def sysgen_init (cfg : SysgenConfig) : SysgenState :=
  { imgsz := 0
    size := alignAddr cfg.szSyspage 8
    console := 0
    maps := []
    progs := []
    aliases := [] }

/-- Run a sequence of command invocations, aborting at the first failure
(the top level aborts the whole run on any command failure). -/
def optFold (f : SysgenState → List (List Char) → Option SysgenState) :
    SysgenState → List (List (List Char)) → Option SysgenState
  | st, [] => some st
  | st, a :: rest =>
    match f st a with
    | none => none
    | some st' => optFold f st' rest

/-! Specification-side predicates used to state the claims. -/

/-- Two maps are compatible when their half-open intervals do not intersect
and their names differ. -/
def mapsCompat (a b : syspage_map_t) : Prop :=
  ¬(a.start < b.end_ ∧ b.start < a.end_) ∧ a.name ≠ b.name

instance : DecidableRel mapsCompat := fun _ _ => by
  unfold mapsCompat; infer_instance

/-- Value of a decimal digit string. -/
def decDigits (s : List Char) : Nat :=
  s.foldl (fun a c => a * 10 + (c.toNat - 48)) 0

/-- Modelled from the spec: an `<integer>` token of the script grammar, i.e.
a nonempty token that `strtoul` consumes entirely. -/
def specInteger (s : List Char) : Bool :=
  !s.isEmpty && (sysgen_strtoul s).rest.isEmpty

/-- Modelled from the spec: a token that fully parses as
`<integer>.<integer>` with no trailing characters. -/
def specIntDotInt (s : List Char) : Bool :=
  (List.range s.length).any (fun i =>
    s.get? i == some '.' && specInteger (s.take i) && specInteger (s.drop (i + 1)))

/-- A fully blank script line: nonempty and consisting of whitespace only. -/
def blankLine (l : List Char) : Bool :=
  !l.isEmpty && l.all isSpaceC

/-- Whether a first token names one of the four table commands. -/
def isKnownCmd (t : List Char) : Bool :=
  t == toL "alias" || t == toL "map" || t == toL "app" || t == toL "console"

/-! Helper lemmas. -/

theorem le_alignAddr8 (x : Nat) : x ≤ alignAddr x 8 := by
  unfold alignAddr
  simp only [OfNat.ofNat_ne_zero, if_false]
  omega

theorem alignAddr8_mod (x : Nat) : alignAddr x 8 % 8 = 0 := by
  unfold alignAddr
  simp only [OfNat.ofNat_ne_zero, if_false]
  omega

theorem sysgen_buffAlloc_some {cfg : SysgenConfig} {st : SysgenState} {sz p : Nat}
    {st' : SysgenState} (h : sysgen_buffAlloc cfg st sz = some (p, st')) :
    st'.size = alignAddr (st.size + sz) 8 ∧
    alignAddr (st.size + sz) 8 < cfg.maxsz ∧
    p = st.size + cfg.pkernel + cfg.offs ∧
    st'.imgsz = st.imgsz ∧ st'.console = st.console ∧
    st'.maps = st.maps ∧ st'.progs = st.progs ∧ st'.aliases = st.aliases := by
  unfold sysgen_buffAlloc at h
  split at h
  · exact Option.noConfusion h
  · rename_i hlt
    simp only [Option.some.injEq, Prod.mk.injEq] at h
    obtain ⟨hp, hst⟩ := h
    subst hst
    refine ⟨rfl, by omega, hp.symm, rfl, rfl, rfl, rfl, rfl⟩

theorem sysgen_buffAlloc_none_iff (cfg : SysgenConfig) (st : SysgenState) (sz : Nat) :
    sysgen_buffAlloc cfg st sz = none ↔ cfg.maxsz ≤ alignAddr (st.size + sz) 8 := by
  unfold sysgen_buffAlloc
  split
  · rename_i hc
    simpa using hc
  · rename_i hc
    simpa using hc

/-- C3: an allocation request fails exactly when the candidate new high-water
mark (the 8-byte-aligned sum of the current mark and the request) meets or
exceeds the configured capacity; a failed request returns no region and no
new state, so the arena and all previously built records are untouched; a
successful request returns the old mark's execution address, and the
allocated region's end (old mark + size, within the buffer) stays below the
configured maximum size, with all registries unchanged. -/
theorem C3_alloc_bound (cfg : SysgenConfig) (st : SysgenState) (sz : Nat) :
    (sysgen_buffAlloc cfg st sz = none ↔ cfg.maxsz ≤ alignAddr (st.size + sz) 8) ∧
    (∀ p st', sysgen_buffAlloc cfg st sz = some (p, st') →
      p = st.size + cfg.pkernel + cfg.offs ∧
      st'.size = alignAddr (st.size + sz) 8 ∧
      st.size + sz < cfg.maxsz ∧
      st'.maps = st.maps ∧ st'.progs = st.progs ∧ st'.aliases = st.aliases ∧
      st'.imgsz = st.imgsz ∧ st'.console = st.console) := by
  constructor
  · exact sysgen_buffAlloc_none_iff cfg st sz
  · intro p st' h
    obtain ⟨h1, h2, h3, h4, h5, h6, h7, h8⟩ := sysgen_buffAlloc_some h
    have hle := le_alignAddr8 (st.size + sz)
    exact ⟨h3, h1, by omega, h6, h7, h8, h4, h5⟩

/-- Witness for C3 at a concrete allocation: capacity 100, current mark 8,
request 4; the premise of the success clause is discharged by computation. -/
theorem C3_alloc_bound_witness :
    sysgen_buffAlloc ⟨0, 0, 100, 8, 8, 8⟩ (sysgen_init ⟨0, 0, 100, 8, 8, 8⟩) 4 =
      some (8, { sysgen_init ⟨0, 0, 100, 8, 8, 8⟩ with size := 16 }) ∧
    (sysgen_init ⟨0, 0, 100, 8, 8, 8⟩).size + 4 < 100 := by
  have h := (C3_alloc_bound ⟨0, 0, 100, 8, 8, 8⟩ (sysgen_init ⟨0, 0, 100, 8, 8, 8⟩) 4).2
    8 { sysgen_init ⟨0, 0, 100, 8, 8, 8⟩ with size := 16 } (by decide)
  exact ⟨by decide, h.2.2.1⟩

theorem sysgen_cmdAlias_some {cfg : SysgenConfig} {st : SysgenState}
    {argv : List (List Char)} {st' : SysgenState}
    (h : sysgen_cmdAlias cfg st argv = some st') :
    ∃ a0 nameTok addrTok sizeTok, argv = [a0, nameTok, addrTok, sizeTok] ∧
      (sysgen_strtoul addrTok).rest = [] ∧ (sysgen_strtoul sizeTok).rest = [] ∧
      st' = { st with
        imgsz := if st.imgsz < (sysgen_strtoul addrTok).val + (sysgen_strtoul sizeTok).val
          then (sysgen_strtoul addrTok).val + (sysgen_strtoul sizeTok).val
          else st.imgsz
        aliases := ⟨nameTok.take 31, (sysgen_strtoul addrTok).val + cfg.pkernel,
          (sysgen_strtoul sizeTok).val⟩ :: st.aliases } := by
  rcases argv with _ | ⟨a0, _ | ⟨a1, _ | ⟨a2, _ | ⟨a3, _ | ⟨a4, rest⟩⟩⟩⟩⟩ <;>
    simp [sysgen_cmdAlias] at h
  obtain ⟨⟨h1, h2⟩, h3⟩ := h
  exact ⟨a0, a1, a2, a3, rfl, h1, h2, h3.symm⟩

/-- C7: every successful alias definition pushes its record at the head of
the alias list; a lookup of that record's stored name returns the new record
(so among duplicate names the most recently defined one wins, since
sysgen_aliasFind scans most-recently-defined-first), and lookups of any
other name are unaffected by the new record. -/
theorem C7_alias_shadowing (cfg : SysgenConfig) (st : SysgenState)
    (argv : List (List Char)) (st' : SysgenState)
    (h : sysgen_cmdAlias cfg st argv = some st') :
    ∃ r : phfs_alias_t, st'.aliases = r :: st.aliases ∧
      sysgen_aliasFind st'.aliases r.name = some r ∧
      ∀ q, q ≠ r.name → sysgen_aliasFind st'.aliases q = sysgen_aliasFind st.aliases q := by
  obtain ⟨a0, nameTok, addrTok, sizeTok, -, -, -, hst⟩ := sysgen_cmdAlias_some h
  subst hst
  refine ⟨_, rfl, ?_, ?_⟩
  · unfold sysgen_aliasFind
    simp [List.find?_cons]
  · intro q hq
    unfold sysgen_aliasFind
    rw [List.find?_cons_of_neg]
    simp only [beq_iff_eq]
    exact fun hc => hq hc.symm

/-- Witness for C7: a concrete `alias dev 1 2` on the empty state. -/
theorem C7_alias_shadowing_witness :
    sysgen_cmdAlias ⟨0, 0, 100, 8, 8, 8⟩ (sysgen_init ⟨0, 0, 100, 8, 8, 8⟩)
        [toL "alias", toL "dev", toL "1", toL "2"] =
      some { sysgen_init ⟨0, 0, 100, 8, 8, 8⟩ with
        imgsz := 3, aliases := [⟨toL "dev", 1, 2⟩] } ∧
    (∃ r : phfs_alias_t,
      ({ sysgen_init ⟨0, 0, 100, 8, 8, 8⟩ with
          imgsz := 3, aliases := [⟨toL "dev", 1, 2⟩] } : SysgenState).aliases =
        r :: (sysgen_init ⟨0, 0, 100, 8, 8, 8⟩).aliases ∧
      sysgen_aliasFind [⟨toL "dev", 1, 2⟩] r.name = some r ∧
      ∀ q, q ≠ r.name →
        sysgen_aliasFind [⟨toL "dev", 1, 2⟩] q =
          sysgen_aliasFind (sysgen_init ⟨0, 0, 100, 8, 8, 8⟩).aliases q) := by
  refine ⟨by decide, ?_⟩
  exact C7_alias_shadowing ⟨0, 0, 100, 8, 8, 8⟩ (sysgen_init ⟨0, 0, 100, 8, 8, 8⟩)
    [toL "alias", toL "dev", toL "1", toL "2"] _ (by decide)

theorem aliasFind_long_none {l : List phfs_alias_t} {q : List Char}
    (hq : 31 < q.length) (hl : ∀ a ∈ l, a.name.length ≤ 31) :
    sysgen_aliasFind l q = none := by
  unfold sysgen_aliasFind
  rw [List.find?_eq_none]
  intro a ha
  simp only [beq_iff_eq]
  intro hc
  have := hl a ha
  rw [hc] at this
  omega

/-- C10 (amended): a successful alias definition stores the name truncated
to its first 31 characters, and a lookup succeeds only on the exact stored
(truncated) form: looking up the 31-character truncation returns the new
record, while any query longer than 31 characters matches no stored name at
all (assuming, as the program guarantees, that every previously stored name
is at most 31 characters long). -/
theorem C10_alias_truncation (cfg : SysgenConfig) (st : SysgenState)
    (argv : List (List Char)) (st' : SysgenState) (nameTok : List Char)
    (h : sysgen_cmdAlias cfg st argv = some st')
    (hn : argv.get? 1 = some nameTok) :
    ∃ r : phfs_alias_t, st'.aliases = r :: st.aliases ∧
      r.name = nameTok.take 31 ∧
      sysgen_aliasFind st'.aliases (nameTok.take 31) = some r ∧
      ∀ q, 31 < q.length → (∀ a ∈ st.aliases, a.name.length ≤ 31) →
        sysgen_aliasFind st'.aliases q = none := by
  obtain ⟨a0, nameTok', addrTok, sizeTok, hargv, -, -, hst⟩ := sysgen_cmdAlias_some h
  subst hargv
  simp only [List.get?] at hn
  injection hn with hn
  subst hn
  subst hst
  refine ⟨_, rfl, rfl, ?_, ?_⟩
  · unfold sysgen_aliasFind
    simp [List.find?_cons]
  · intro q hq hst
    refine aliasFind_long_none hq ?_
    intro a ha
    rcases List.mem_cons.1 ha with h1 | h2
    · subst h1
      simp only [List.length_take]
      omega
    · exact hst a h2

/-- Witness for C10 (amended) at a concrete 32-character alias name. -/
theorem C10_alias_truncation_witness :
    sysgen_cmdAlias ⟨0, 0, 100, 8, 8, 8⟩ (sysgen_init ⟨0, 0, 100, 8, 8, 8⟩)
        [toL "alias", toL "abcdefghijklmnopqrstuvwxyz012345", toL "0", toL "0"] =
      some { sysgen_init ⟨0, 0, 100, 8, 8, 8⟩ with
        aliases := [⟨toL "abcdefghijklmnopqrstuvwxyz01234", 0, 0⟩] } ∧
    [toL "alias", toL "abcdefghijklmnopqrstuvwxyz012345", toL "0", toL "0"].get? 1 =
      some (toL "abcdefghijklmnopqrstuvwxyz012345") ∧
    (∃ r : phfs_alias_t,
      ({ sysgen_init ⟨0, 0, 100, 8, 8, 8⟩ with
          aliases := [⟨toL "abcdefghijklmnopqrstuvwxyz01234", 0, 0⟩] } : SysgenState).aliases =
        r :: (sysgen_init ⟨0, 0, 100, 8, 8, 8⟩).aliases ∧
      r.name = (toL "abcdefghijklmnopqrstuvwxyz012345").take 31 ∧
      sysgen_aliasFind [⟨toL "abcdefghijklmnopqrstuvwxyz01234", 0, 0⟩]
          ((toL "abcdefghijklmnopqrstuvwxyz012345").take 31) = some r ∧
      ∀ q, 31 < q.length →
        (∀ a ∈ (sysgen_init ⟨0, 0, 100, 8, 8, 8⟩).aliases, a.name.length ≤ 31) →
        sysgen_aliasFind [⟨toL "abcdefghijklmnopqrstuvwxyz01234", 0, 0⟩] q = none) := by
  refine ⟨by decide, by decide, ?_⟩
  exact C10_alias_truncation ⟨0, 0, 100, 8, 8, 8⟩ (sysgen_init ⟨0, 0, 100, 8, 8, 8⟩)
    [toL "alias", toL "abcdefghijklmnopqrstuvwxyz012345", toL "0", toL "0"] _
    (toL "abcdefghijklmnopqrstuvwxyz012345") (by decide) (by decide)

/-- Counterexample for C10 as stated: defining an alias under a 32-character
name succeeds, but a later find with that same 32-character name (which
certainly agrees with the defined name on its first 31 characters) returns
nothing, instead of denoting the just-defined alias. -/
theorem C10_counterexample :
    (sysgen_cmdAlias ⟨0, 0, 100, 8, 8, 8⟩ (sysgen_init ⟨0, 0, 100, 8, 8, 8⟩)
        [toL "alias", toL "abcdefghijklmnopqrstuvwxyz012345", toL "0", toL "0"]).map
      (fun st => sysgen_aliasFind st.aliases (toL "abcdefghijklmnopqrstuvwxyz012345")) =
      some none := by decide

theorem sysgen_mapAdd_some {cfg : SysgenConfig} {st : SysgenState}
    {mapName : List Char} {start end_ attr : Nat} {st' : SysgenState}
    (h : sysgen_mapAdd cfg st mapName start end_ attr = some st') :
    st'.maps = st.maps ++ [⟨mapNextId st.maps, mapName, start, end_, attr⟩] ∧
    st'.size % 8 = 0 ∧ st'.size < cfg.maxsz ∧
    st'.progs = st.progs ∧ st'.aliases = st.aliases ∧
    st'.console = st.console ∧ st'.imgsz = st.imgsz := by
  unfold sysgen_mapAdd at h
  cases h1 : sysgen_buffAlloc cfg st cfg.szMap with
  | none => rw [h1] at h; exact Option.noConfusion h
  | some pr1 =>
    rw [h1] at h
    obtain ⟨p1, st1⟩ := pr1
    dsimp only at h
    cases h2 : sysgen_buffAlloc cfg st1 (mapName.length + 1) with
    | none => rw [h2] at h; exact Option.noConfusion h
    | some pr2 =>
      rw [h2] at h
      obtain ⟨p2, st2⟩ := pr2
      dsimp only at h
      simp only [Option.some.injEq] at h
      obtain ⟨hs1, hlt1, -, hi1, hc1, hm1, hp1, ha1⟩ := sysgen_buffAlloc_some h1
      obtain ⟨hs2, hlt2, -, hi2, hc2, hm2, hp2, ha2⟩ := sysgen_buffAlloc_some h2
      subst h
      refine ⟨by rw [hm2, hm1], ?_, ?_, by rw [hp2, hp1], by rw [ha2, ha1],
        by rw [hc2, hc1], by rw [hi2, hi1]⟩
      · simpa [hs2] using alignAddr8_mod (st1.size + (mapName.length + 1))
      · simpa [hs2] using hlt2

theorem sysgen_cmdMap_some {cfg : SysgenConfig} {st : SysgenState}
    {argv : List (List Char)} {st' : SysgenState}
    (h : sysgen_cmdMap cfg st argv = some st') :
    ∃ a0 nameTok startTok endTok attrTok attr,
      argv = [a0, nameTok, startTok, endTok, attrTok] ∧
      sysgen_strAttr2ui attrTok = some attr ∧
      sysgen_mapOverlapping st.maps nameTok (sysgen_strtoul startTok).val
        (sysgen_strtoul endTok).val = false ∧
      st'.maps = st.maps ++ [⟨mapNextId st.maps, nameTok,
        (sysgen_strtoul startTok).val, (sysgen_strtoul endTok).val, attr⟩] ∧
      st'.size % 8 = 0 ∧ st'.size < cfg.maxsz ∧
      st'.progs = st.progs ∧ st'.aliases = st.aliases ∧
      st'.console = st.console ∧ st'.imgsz = st.imgsz := by
  rcases argv with _ | ⟨a0, _ | ⟨a1, _ | ⟨a2, _ | ⟨a3, _ | ⟨a4, _ | ⟨a5, rest⟩⟩⟩⟩⟩⟩ <;>
    simp [sysgen_cmdMap] at h
  obtain ⟨h1, h2, h3⟩ := h
  cases hattr : sysgen_strAttr2ui a4 with
  | none => rw [hattr] at h3; exact Option.noConfusion h3
  | some attr =>
    rw [hattr] at h3
    dsimp only at h3
    split at h3
    · exact Option.noConfusion h3
    · rename_i hov
      obtain ⟨hmaps, hsz, hlt, hp, ha, hc, hi⟩ := sysgen_mapAdd_some h3
      refine ⟨a0, a1, a2, a3, a4, attr, rfl, hattr, by simpa using hov,
        hmaps, hsz, hlt, hp, ha, hc, hi⟩

theorem mapNextId_of_range {l : List syspage_map_t}
    (h : l.map syspage_map_t.id = List.range l.length) : mapNextId l = l.length := by
  rcases List.eq_nil_or_concat l with hnil | ⟨l', m, hl⟩
  · subst hnil; rfl
  · rw [List.concat_eq_append] at hl
    subst hl
    unfold mapNextId
    rw [List.getLast?_concat]
    rw [List.map_append, List.length_append] at h
    simp only [List.map_cons, List.map_nil, List.length_cons, List.length_nil] at h
    have hr : List.range (l'.length + 1) = List.range l'.length ++ [l'.length] :=
      List.range_succ l'.length
    rw [hr] at h
    have hlen : (l'.map syspage_map_t.id).length = (List.range l'.length).length := by
      simp
    have hm := (List.append_inj h hlen).2
    simp only [List.cons.injEq, and_true] at hm
    simp [hm]

theorem mapsInv_step {cfg : SysgenConfig} {st st' : SysgenState}
    {argv : List (List Char)}
    (h : sysgen_cmdMap cfg st argv = some st')
    (hpw : st.maps.Pairwise mapsCompat)
    (hid : st.maps.map syspage_map_t.id = List.range st.maps.length) :
    st'.maps.Pairwise mapsCompat ∧
    st'.maps.map syspage_map_t.id = List.range st'.maps.length := by
  obtain ⟨a0, n, sTok, eTok, aTok, attr, -, -, hov, hmaps, -, -, -, -, -, -⟩ :=
    sysgen_cmdMap_some h
  constructor
  · rw [hmaps, List.pairwise_append]
    refine ⟨hpw, by simp, ?_⟩
    intro a ha b hb
    simp only [List.mem_singleton] at hb
    subst hb
    unfold sysgen_mapOverlapping at hov
    rw [List.any_eq_false] at hov
    have hm := hov a ha
    simp only [Bool.or_eq_true, Bool.and_eq_true, decide_eq_true_eq, beq_iff_eq,
      not_or, not_and] at hm
    exact ⟨fun hc => absurd hc.2 (hm.1 hc.1), hm.2⟩
  · rw [hmaps, List.map_append, List.length_append]
    simp only [List.map_cons, List.map_nil, List.length_cons, List.length_nil]
    rw [hid, mapNextId_of_range hid]
    exact (List.range_succ st.maps.length).symm

theorem optFold_cmdMap_inv (cfg : SysgenConfig) :
    ∀ (argss : List (List (List Char))) (st st' : SysgenState),
      st.maps.Pairwise mapsCompat →
      st.maps.map syspage_map_t.id = List.range st.maps.length →
      optFold (sysgen_cmdMap cfg) st argss = some st' →
      st'.maps.Pairwise mapsCompat ∧
      st'.maps.map syspage_map_t.id = List.range st'.maps.length := by
  intro argss
  induction argss with
  | nil =>
    intro st st' h1 h2 h
    unfold optFold at h
    injection h with h
    subst h
    exact ⟨h1, h2⟩
  | cons a rest ih =>
    intro st st' h1 h2 h
    unfold optFold at h
    cases hc : sysgen_cmdMap cfg st a with
    | none => rw [hc] at h; exact Option.noConfusion h
    | some st1 =>
      rw [hc] at h
      dsimp only at h
      obtain ⟨g1, g2⟩ := mapsInv_step hc h1 h2
      exact ih st1 st' g1 g2 h

/-- C4: a map command is rejected whenever the requested half-open interval
intersects an existing map's interval or the requested name equals an
existing map's name (the rejection yields no new state, so the map list is
untouched); consequently, after any sequence of map-add operations from the
initial empty state, the surviving maps are pairwise compatible: their
intervals do not intersect and their names differ. -/
theorem C4_map_nonoverlap (cfg : SysgenConfig) :
    (∀ (st : SysgenState) (a0 nameTok startTok endTok attrTok : List Char),
      (∃ m ∈ st.maps,
        (m.start < (sysgen_strtoul endTok).val ∧
          (sysgen_strtoul startTok).val < m.end_) ∨ m.name = nameTok) →
      sysgen_cmdMap cfg st [a0, nameTok, startTok, endTok, attrTok] = none) ∧
    (∀ (argss : List (List (List Char))) (st : SysgenState),
      optFold (sysgen_cmdMap cfg) (sysgen_init cfg) argss = some st →
      st.maps.Pairwise mapsCompat) := by
  constructor
  · intro st a0 nameTok startTok endTok attrTok ⟨m, hm, hcase⟩
    by_contra hne
    obtain ⟨st', hst'⟩ := Option.ne_none_iff_exists'.1 hne
    obtain ⟨b0, n', sT', eT', aT', attr, heq, -, hov, -⟩ := sysgen_cmdMap_some hst'
    simp only [List.cons.injEq, and_true] at heq
    obtain ⟨-, hn, hs, he, -⟩ := heq
    subst hn; subst hs; subst he
    unfold sysgen_mapOverlapping at hov
    rw [List.any_eq_false] at hov
    have hc := hov m hm
    simp only [Bool.or_eq_true, Bool.and_eq_true, decide_eq_true_eq, beq_iff_eq,
      not_or, not_and] at hc
    rcases hcase with h1 | h2
    · exact hc.1 h1.1 h1.2
    · exact hc.2 h2
  · intro argss st h
    exact (optFold_cmdMap_inv cfg argss (sysgen_init cfg) st (by simp [sysgen_init])
      (by simp [sysgen_init]) h).1

/-- C5: after any sequence of successful map additions starting from the
initial empty state, the list of map ids in insertion order is exactly
0, 1, 2, ...; that is, the k-th successfully added map (1-indexed) has
id k - 1. -/
theorem C5_map_ids_sequential (cfg : SysgenConfig)
    (argss : List (List (List Char))) (st : SysgenState)
    (h : optFold (sysgen_cmdMap cfg) (sysgen_init cfg) argss = some st) :
    st.maps.map syspage_map_t.id = List.range st.maps.length :=
  (optFold_cmdMap_inv cfg argss (sysgen_init cfg) st (by simp [sysgen_init])
    (by simp [sysgen_init]) h).2

/-- Witness for C4: a conflicting request (`map devram 0x8000 0x20000 rw`
against an existing `ocram` map covering 0x0..0x10000) is rejected, and a
one-command add sequence from the empty state yields pairwise-compatible
maps. -/
theorem C4_map_nonoverlap_witness :
    (∃ m ∈ (⟨0, 120, 0, [⟨0, toL "ocram", 0, 65536, 7⟩], [], []⟩ : SysgenState).maps,
      (m.start < (sysgen_strtoul (toL "0x20000")).val ∧
        (sysgen_strtoul (toL "0x8000")).val < m.end_) ∨ m.name = toL "devram") ∧
    sysgen_cmdMap ⟨0, 0, 2048, 64, 48, 56⟩
      ⟨0, 120, 0, [⟨0, toL "ocram", 0, 65536, 7⟩], [], []⟩
      [toL "map", toL "devram", toL "0x8000", toL "0x20000", toL "rw"] = none ∧
    optFold (sysgen_cmdMap ⟨0, 0, 2048, 64, 48, 56⟩) (sysgen_init ⟨0, 0, 2048, 64, 48, 56⟩)
      [[toL "map", toL "ocram", toL "0x0", toL "0x10000", toL "rwx"]] =
      some ⟨0, 120, 0, [⟨0, toL "ocram", 0, 65536, 7⟩], [], []⟩ ∧
    List.Pairwise mapsCompat
      (⟨0, 120, 0, [⟨0, toL "ocram", 0, 65536, 7⟩], [], []⟩ : SysgenState).maps := by
  refine ⟨by decide, ?_, by decide, ?_⟩
  · exact (C4_map_nonoverlap ⟨0, 0, 2048, 64, 48, 56⟩).1
      ⟨0, 120, 0, [⟨0, toL "ocram", 0, 65536, 7⟩], [], []⟩
      (toL "map") (toL "devram") (toL "0x8000") (toL "0x20000") (toL "rw") (by decide)
  · exact (C4_map_nonoverlap ⟨0, 0, 2048, 64, 48, 56⟩).2
      [[toL "map", toL "ocram", toL "0x0", toL "0x10000", toL "rwx"]]
      ⟨0, 120, 0, [⟨0, toL "ocram", 0, 65536, 7⟩], [], []⟩ (by decide)

/-- Witness for C5: two successful map additions from the empty state give
ids 0 and 1 in insertion order. -/
theorem C5_map_ids_sequential_witness :
    optFold (sysgen_cmdMap ⟨0, 0, 2048, 64, 48, 56⟩) (sysgen_init ⟨0, 0, 2048, 64, 48, 56⟩)
      [[toL "map", toL "ocram", toL "0x0", toL "0x10000", toL "rwx"],
       [toL "map", toL "ddr", toL "0x20000", toL "0x30000", toL "rw"]] =
      some ⟨0, 176, 0, [⟨0, toL "ocram", 0, 65536, 7⟩, ⟨1, toL "ddr", 131072, 196608, 3⟩],
        [], []⟩ ∧
    (⟨0, 176, 0, [⟨0, toL "ocram", 0, 65536, 7⟩, ⟨1, toL "ddr", 131072, 196608, 3⟩],
        [], []⟩ : SysgenState).maps.map syspage_map_t.id =
      List.range (⟨0, 176, 0, [⟨0, toL "ocram", 0, 65536, 7⟩,
        ⟨1, toL "ddr", 131072, 196608, 3⟩], [], []⟩ : SysgenState).maps.length := by
  refine ⟨by decide, ?_⟩
  exact C5_map_ids_sequential ⟨0, 0, 2048, 64, 48, 56⟩
    [[toL "map", toL "ocram", toL "0x0", toL "0x10000", toL "rwx"],
     [toL "map", toL "ddr", toL "0x20000", toL "0x30000", toL "rw"]]
    ⟨0, 176, 0, [⟨0, toL "ocram", 0, 65536, 7⟩, ⟨1, toL "ddr", 131072, 196608, 3⟩], [], []⟩
    (by decide)

theorem sysgen_appAdd_size {cfg : SysgenConfig} {st : SysgenState}
    {name imaps dmaps appArgv : List Char} {flags : Nat} {st' : SysgenState}
    (h : sysgen_appAdd cfg st name imaps dmaps appArgv flags = some st') :
    st'.size % 8 = 0 ∧ st'.size < cfg.maxsz := by
  unfold sysgen_appAdd at h
  split at h
  · exact Option.noConfusion h
  · rename_i alias_ heq
    dsimp only at h
    split at h
    · exact Option.noConfusion h
    · rename_i pr1 h1
      split at h
      · exact Option.noConfusion h
      · rename_i pr2 h2
        split at h
        · exact Option.noConfusion h
        · rename_i pr3 h3
          split at h
          · exact Option.noConfusion h
          · rename_i pr4 h4
            split at h
            · exact Option.noConfusion h
            · rename_i iIds h5
              split at h
              · exact Option.noConfusion h
              · rename_i dIds h6
                simp only [Option.some.injEq] at h
                subst h
                have hb := sysgen_buffAlloc_some h4
                dsimp only at hb ⊢
                refine ⟨?_, by omega⟩
                rw [hb.1]
                exact alignAddr8_mod _

theorem sysgen_cmdApp_size {cfg : SysgenConfig} {st : SysgenState}
    {argv : List (List Char)} {st' : SysgenState}
    (h : sysgen_cmdApp cfg st argv = some st') :
    st'.size % 8 = 0 ∧ st'.size < cfg.maxsz := by
  unfold sysgen_cmdApp at h
  dsimp only at h
  split at h
  · exact Option.noConfusion h
  · split at h
    · exact Option.noConfusion h
    · rename_i a2 hget
      split at h
      · exact Option.noConfusion h
      · rename_i fl aid hfi
        split at h
        · exact Option.noConfusion h
        · split at h
          · rename_i appArgv imaps dmaps hA hI hD
            exact sysgen_appAdd_size h
          · exact Option.noConfusion h

theorem sysgen_cmdConsole_some {st : SysgenState} {argv : List (List Char)}
    {st' : SysgenState} (h : sysgen_cmdConsole st argv = some st') :
    ∃ v, st' = { st with console := v } := by
  rcases argv with _ | ⟨a0, _ | ⟨a1, _ | ⟨a2, r⟩⟩⟩ <;> try simp [sysgen_cmdConsole] at h
  split at h
  · rename_i t hr
    split at h
    · simp only [Option.some.injEq] at h
      exact ⟨_, h.symm⟩
    · exact Option.noConfusion h
  · exact Option.noConfusion h

theorem sysgen_runCmd_size {cfg : SysgenConfig} {st : SysgenState}
    {toks : List (List Char)} {st' : SysgenState}
    (h : sysgen_runCmd cfg st toks = some st') :
    st'.size = st.size ∨ (st'.size % 8 = 0 ∧ st'.size < cfg.maxsz) := by
  unfold sysgen_runCmd at h
  rcases toks with _ | ⟨t, ts⟩
  · dsimp only at h
    injection h with h
    rw [← h]
    exact Or.inl rfl
  · dsimp only at h
    split at h
    · obtain ⟨a0, nT, aT, sT, -, -, -, hst⟩ := sysgen_cmdAlias_some h
      subst hst
      exact Or.inl rfl
    · split at h
      · obtain ⟨a0, nT, sT, eT, aT, attr, -, -, -, -, hsz, hlt, -⟩ := sysgen_cmdMap_some h
        exact Or.inr ⟨hsz, hlt⟩
      · split at h
        · exact Or.inr (sysgen_cmdApp_size h)
        · split at h
          · obtain ⟨v, hst⟩ := sysgen_cmdConsole_some h
            subst hst
            exact Or.inl rfl
          · injection h with h
            rw [← h]
            exact Or.inl rfl

theorem sysgen_parseScript_size (cfg : SysgenConfig) :
    ∀ (lines : List (List Char)) (st st' : SysgenState),
      st.size % 8 = 0 → st.size ≤ cfg.maxsz →
      sysgen_parseScript cfg st lines = some st' →
      st'.size % 8 = 0 ∧ st'.size ≤ cfg.maxsz := by
  intro lines
  induction lines with
  | nil =>
    intro st st' h1 h2 h
    unfold sysgen_parseScript at h
    injection h with h
    subst h
    exact ⟨h1, h2⟩
  | cons line rest ih =>
    intro st st' h1 h2 h
    unfold sysgen_parseScript at h
    split at h
    · injection h with h
      subst h
      exact ⟨h1, h2⟩
    · split at h
      · exact Option.noConfusion h
      · exact ih st st' h1 h2 h
      · rename_i t ts htoks
        split at h
        · exact Option.noConfusion h
        · rename_i st1 hrun
          rcases sysgen_runCmd_size hrun with he | ⟨ha, hb⟩
          · exact ih st1 st' (he ▸ h1) (he ▸ h2) h
          · exact ih st1 st' ha (le_of_lt hb) h

/-- C9 (amended): provided the configured capacity is at least the initial
aligned header size (a bound `main` itself never checks: it only rejects
capacity 0, see the counterexample), the arena's high-water mark is a
multiple of 8 and never exceeds the capacity after initialization and after
every script operation; moreover every address handed out by the allocator
to an 8-aligned arena is 8-byte aligned relative to the buffer start. -/
theorem C9_arena_invariant (cfg : SysgenConfig) (lines : List (List Char))
    (st : SysgenState) (hcap : (sysgen_init cfg).size ≤ cfg.maxsz)
    (h : sysgen_parseScript cfg (sysgen_init cfg) lines = some st) :
    st.size % 8 = 0 ∧ st.size ≤ cfg.maxsz ∧
    (∀ (st2 : SysgenState) (sz p : Nat) (st3 : SysgenState), st2.size % 8 = 0 →
      sysgen_buffAlloc cfg st2 sz = some (p, st3) →
      (p - (cfg.pkernel + cfg.offs)) % 8 = 0) := by
  have h0 : (sysgen_init cfg).size % 8 = 0 := alignAddr8_mod _
  obtain ⟨g1, g2⟩ := sysgen_parseScript_size cfg lines _ st h0 hcap h
  refine ⟨g1, g2, ?_⟩
  intro st2 sz p st3 hmod hal
  obtain ⟨-, -, hp, -⟩ := sysgen_buffAlloc_some hal
  rw [hp]
  omega

/-- Witness for C9 (amended) on a concrete one-line script. -/
theorem C9_arena_invariant_witness :
    (sysgen_init ⟨0, 0, 2048, 64, 48, 56⟩).size ≤ 2048 ∧
    sysgen_parseScript ⟨0, 0, 2048, 64, 48, 56⟩ (sysgen_init ⟨0, 0, 2048, 64, 48, 56⟩)
      [toL "map ocram 0x0 0x10000 rwx\n"] =
      some ⟨0, 120, 0, [⟨0, toL "ocram", 0, 65536, 7⟩], [], []⟩ ∧
    (⟨0, 120, 0, [⟨0, toL "ocram", 0, 65536, 7⟩], [], []⟩ : SysgenState).size % 8 = 0 ∧
    (⟨0, 120, 0, [⟨0, toL "ocram", 0, 65536, 7⟩], [], []⟩ : SysgenState).size ≤ 2048 := by
  refine ⟨by decide, by decide, ?_⟩
  have h := C9_arena_invariant ⟨0, 0, 2048, 64, 48, 56⟩ [toL "map ocram 0x0 0x10000 rwx\n"]
    ⟨0, 120, 0, [⟨0, toL "ocram", 0, 65536, 7⟩], [], []⟩ (by decide) (by decide)
  exact ⟨h.1, h.2.1⟩

/-- Counterexample for C9 as stated: `main` accepts any nonzero capacity, and
with capacity 1 the high-water mark set by initialization (the aligned
header size, 8 with the representative header size) already exceeds the
configured capacity. -/
theorem C9_counterexample :
    (⟨0, 0, 1, 8, 8, 8⟩ : SysgenConfig).maxsz <
      (sysgen_init ⟨0, 0, 1, 8, 8, 8⟩).size := by decide

theorem sysgen_tokenize_spaces :
    ∀ (l : List Char) (bufRem argc : Nat), (∀ c ∈ l, isSpaceC c = true) →
      sysgen_tokenize SIZE_CMD_ARGV l bufRem argc none = some [] := by
  intro l
  induction l with
  | nil => intro bufRem argc h; rfl
  | cons c rest ih =>
    intro bufRem argc h
    have hc : isSpaceC c = true := h c (by simp)
    have hnul : ¬(c = '\x00') := by
      intro hh
      subst hh
      exact absurd hc (by decide)
    unfold sysgen_tokenize
    rw [if_neg hnul]
    by_cases hb : isBlankC c = true
    · rw [if_pos hb]
      exact ih bufRem argc (fun x hx => h x (List.mem_cons_of_mem c hx))
    · rw [if_neg hb, if_pos hc]

theorem sysgen_parseArgLine_nul (r : List Char) :
    sysgen_parseArgLine ('\x00' :: r) = some [] := by
  unfold sysgen_parseArgLine sysgen_tokenize
  simp

theorem sysgen_runCmd_unknown {cfg : SysgenConfig} {st : SysgenState}
    {t : List Char} {ts : List (List Char)} (h : isKnownCmd t = false) :
    sysgen_runCmd cfg st (t :: ts) = some st := by
  simp only [isKnownCmd, Bool.or_eq_false_iff, beq_eq_false_iff_ne, ne_eq] at h
  obtain ⟨⟨⟨h1, h2⟩, h3⟩, h4⟩ := h
  unfold sysgen_runCmd
  dsimp only
  rw [if_neg h1, if_neg h2, if_neg h3, if_neg h4]

theorem sysgen_parseScript_cons (cfg : SysgenConfig) (st : SysgenState)
    (line : List Char) (rest : List (List Char)) :
    sysgen_parseScript cfg st (line :: rest) =
      if line = [] ∨ line.head? = some '\x00' then some st
      else
        match sysgen_parseArgLine line with
        | none => none
        | some [] => sysgen_parseScript cfg st rest
        | some (t :: ts) =>
          match sysgen_runCmd cfg st (t :: ts) with
          | none => none
          | some st' => sysgen_parseScript cfg st' rest := by
  rfl

/-- C8 (amended): a fully blank line does not end the script; it is skipped
and processing continues with the remaining lines (script processing stops
early only on an empty getline buffer or a line whose first byte is NUL). -/
theorem C8_blank_line_skipped (cfg : SysgenConfig) (st : SysgenState)
    (line : List Char) (rest : List (List Char)) (h : blankLine line = true) :
    sysgen_parseScript cfg st (line :: rest) = sysgen_parseScript cfg st rest := by
  unfold blankLine at h
  simp only [Bool.and_eq_true, Bool.not_eq_true', List.all_eq_true] at h
  obtain ⟨h1, h2⟩ := h
  cases line with
  | nil => exact absurd h1 (by simp)
  | cons c r =>
    have hpt : sysgen_parseArgLine (c :: r) = some [] :=
      sysgen_tokenize_spaces _ _ 0 h2
    have hcsp : isSpaceC c = true := h2 c (by simp)
    have hguard : ¬(c :: r = [] ∨ (c :: r).head? = some '\x00') := by
      push_neg
      refine ⟨by simp, ?_⟩
      simp only [List.head?_cons, ne_eq, Option.some.injEq]
      intro hh
      rw [hh] at hcsp
      exact absurd hcsp (by decide)
    rw [sysgen_parseScript_cons, if_neg hguard, hpt]

/-- Witness for C8 (amended): the blank line `"\n"` is skipped in front of a
console command. -/
theorem C8_blank_line_skipped_witness :
    blankLine (toL "\n") = true ∧
    sysgen_parseScript ⟨0, 0, 2048, 64, 48, 56⟩ (sysgen_init ⟨0, 0, 2048, 64, 48, 56⟩)
        [toL "\n", toL "console 1.2\n"] =
      sysgen_parseScript ⟨0, 0, 2048, 64, 48, 56⟩ (sysgen_init ⟨0, 0, 2048, 64, 48, 56⟩)
        [toL "console 1.2\n"] := by
  refine ⟨by decide, ?_⟩
  exact C8_blank_line_skipped ⟨0, 0, 2048, 64, 48, 56⟩ (sysgen_init ⟨0, 0, 2048, 64, 48, 56⟩)
    (toL "\n") [toL "console 1.2\n"] (by decide)

/-- Counterexample for C8 as stated: in the script whose first line is fully
blank and whose second line is `console 1.2`, the console command after the
blank line is executed: the run succeeds with console = 2 (it would be 0 had
the blank line terminated the script). -/
theorem C8_counterexample :
    sysgen_parseScript ⟨0, 0, 2048, 64, 48, 56⟩ (sysgen_init ⟨0, 0, 2048, 64, 48, 56⟩)
      [toL "\n", toL "console 1.2\n"] =
      some { sysgen_init ⟨0, 0, 2048, 64, 48, 56⟩ with console := 2 } := by decide

/-- C1 (amended): within a script, only two things abort the run: a line
whose tokenization fails (too many arguments or an overfull argument
buffer), and a recognized command that itself fails. A line that tokenizes
to no arguments is skipped, and so is a non-blank line whose first token is
not one of the four table commands — contrary to the original claim, such a
line does not cause the run to fail. -/
theorem C1_line_dispatch (cfg : SysgenConfig) (st : SysgenState)
    (line : List Char) (rest : List (List Char)) :
    (sysgen_parseArgLine line = none →
      sysgen_parseScript cfg st (line :: rest) = none) ∧
    (sysgen_parseArgLine line = some [] → line ≠ [] → line.head? ≠ some '\x00' →
      sysgen_parseScript cfg st (line :: rest) = sysgen_parseScript cfg st rest) ∧
    (∀ t ts, sysgen_parseArgLine line = some (t :: ts) → isKnownCmd t = false →
      sysgen_parseScript cfg st (line :: rest) = sysgen_parseScript cfg st rest) ∧
    (∀ t ts, sysgen_parseArgLine line = some (t :: ts) →
      sysgen_runCmd cfg st (t :: ts) = none →
      sysgen_parseScript cfg st (line :: rest) = none) := by
  have habort : ∀ t ts, sysgen_parseArgLine line = some (t :: ts) →
      sysgen_runCmd cfg st (t :: ts) = none →
      sysgen_parseScript cfg st (line :: rest) = none := by
    intro t ts h hrun
    have hguard : ¬(line = [] ∨ line.head? = some '\x00') := by
      rintro (hnil | hnul)
      · subst hnil
        rw [show sysgen_parseArgLine [] = some [] from rfl] at h
        simp at h
      · cases line with
        | nil => simp at hnul
        | cons c r =>
          simp only [List.head?_cons, Option.some.injEq] at hnul
          subst hnul
          rw [sysgen_parseArgLine_nul] at h
          simp at h
    rw [sysgen_parseScript_cons, if_neg hguard, h]
    dsimp only
    rw [hrun]
  refine ⟨?_, ?_, ?_, habort⟩
  · intro h
    have hguard : ¬(line = [] ∨ line.head? = some '\x00') := by
      rintro (hnil | hnul)
      · subst hnil
        exact Option.noConfusion (h.symm.trans (by rfl))
      · cases line with
        | nil => simp at hnul
        | cons c r =>
          simp only [List.head?_cons, Option.some.injEq] at hnul
          subst hnul
          rw [sysgen_parseArgLine_nul] at h
          exact Option.noConfusion h
    rw [sysgen_parseScript_cons, if_neg hguard, h]
  · intro h hnil hnul
    rw [sysgen_parseScript_cons, if_neg (by tauto), h]
  · intro t ts h hunk
    have hguard : ¬(line = [] ∨ line.head? = some '\x00') := by
      rintro (hnil | hnul)
      · subst hnil
        rw [show sysgen_parseArgLine [] = some [] from rfl] at h
        simp at h
      · cases line with
        | nil => simp at hnul
        | cons c r =>
          simp only [List.head?_cons, Option.some.injEq] at hnul
          subst hnul
          rw [sysgen_parseArgLine_nul] at h
          simp at h
    rw [sysgen_parseScript_cons, if_neg hguard, h]
    dsimp only
    rw [sysgen_runCmd_unknown hunk]

/-- Witness for C1 (amended): an 11-argument line fails tokenization and
aborts; the blank line `"\n"` is skipped; the unknown-command line
`foo bar` is skipped; the recognized but failing command line `map 1`
(wrong argument count) aborts the run. -/
theorem C1_line_dispatch_witness :
    sysgen_parseArgLine (toL "a b c d e f g h i j k\n") = none ∧
    sysgen_parseScript ⟨0, 0, 2048, 64, 48, 56⟩ (sysgen_init ⟨0, 0, 2048, 64, 48, 56⟩)
      [toL "a b c d e f g h i j k\n"] = none ∧
    sysgen_parseScript ⟨0, 0, 2048, 64, 48, 56⟩ (sysgen_init ⟨0, 0, 2048, 64, 48, 56⟩)
        [toL "\n", toL "alias dev 1 2\n"] =
      sysgen_parseScript ⟨0, 0, 2048, 64, 48, 56⟩ (sysgen_init ⟨0, 0, 2048, 64, 48, 56⟩)
        [toL "alias dev 1 2\n"] ∧
    sysgen_parseScript ⟨0, 0, 2048, 64, 48, 56⟩ (sysgen_init ⟨0, 0, 2048, 64, 48, 56⟩)
        [toL "foo bar\n", toL "alias dev 1 2\n"] =
      sysgen_parseScript ⟨0, 0, 2048, 64, 48, 56⟩ (sysgen_init ⟨0, 0, 2048, 64, 48, 56⟩)
        [toL "alias dev 1 2\n"] ∧
    sysgen_runCmd ⟨0, 0, 2048, 64, 48, 56⟩ (sysgen_init ⟨0, 0, 2048, 64, 48, 56⟩)
      [toL "map", toL "1"] = none ∧
    sysgen_parseScript ⟨0, 0, 2048, 64, 48, 56⟩ (sysgen_init ⟨0, 0, 2048, 64, 48, 56⟩)
      [toL "map 1\n", toL "alias dev 1 2\n"] = none := by
  refine ⟨by decide, ?_, ?_, ?_, by decide, ?_⟩
  · exact (C1_line_dispatch ⟨0, 0, 2048, 64, 48, 56⟩ (sysgen_init ⟨0, 0, 2048, 64, 48, 56⟩)
      (toL "a b c d e f g h i j k\n") []).1 (by decide)
  · exact (C1_line_dispatch ⟨0, 0, 2048, 64, 48, 56⟩ (sysgen_init ⟨0, 0, 2048, 64, 48, 56⟩)
      (toL "\n") [toL "alias dev 1 2\n"]).2.1 (by decide) (by decide) (by decide)
  · exact (C1_line_dispatch ⟨0, 0, 2048, 64, 48, 56⟩ (sysgen_init ⟨0, 0, 2048, 64, 48, 56⟩)
      (toL "foo bar\n") [toL "alias dev 1 2\n"]).2.2.1 (toL "foo") [toL "bar"]
      (by decide) (by decide)
  · exact (C1_line_dispatch ⟨0, 0, 2048, 64, 48, 56⟩ (sysgen_init ⟨0, 0, 2048, 64, 48, 56⟩)
      (toL "map 1\n") [toL "alias dev 1 2\n"]).2.2.2 (toL "map") [toL "1"]
      (by decide) (by decide)

/-- Counterexample for C1 as stated: the script consisting of the single
non-blank line `foo bar` — not a valid command invocation — is processed
successfully with the state unchanged, instead of aborting the run. -/
theorem C1_counterexample :
    sysgen_parseScript ⟨0, 0, 2048, 64, 48, 56⟩ (sysgen_init ⟨0, 0, 2048, 64, 48, 56⟩)
      [toL "foo bar\n"] = some (sysgen_init ⟨0, 0, 2048, 64, 48, 56⟩) := by decide

theorem parseDigitsAux_append {base : Nat} :
    ∀ {D : List Char} {acc v : Nat} {C : List Char},
      parseDigitsAux base D acc = (v, []) →
      (∀ c, C.head? = some c → isDigitIn base c = false) →
      parseDigitsAux base (D ++ C) acc = (v, C) := by
  intro D
  induction D with
  | nil =>
    intro acc v C h hC
    simp only [parseDigitsAux, Prod.mk.injEq] at h
    obtain ⟨hv, -⟩ := h
    subst hv
    cases C with
    | nil => rfl
    | cons c t =>
      have hc := hC c rfl
      simp only [List.nil_append, parseDigitsAux, hc, Bool.false_eq_true, if_false]
  | cons d t ih =>
    intro acc v C h hC
    by_cases hd : isDigitIn base d = true
    · rw [parseDigitsAux, if_pos hd] at h
      simp only [List.cons_append, parseDigitsAux, hd, if_true]
      exact ih h hC
    · rw [parseDigitsAux, if_neg hd] at h
      simp only [Prod.mk.injEq] at h
      exact absurd h.2 (by simp)

theorem strtoulBody_append_dot {A : List Char} {neg : Bool} {B : List Char} :
    ∀ {s2 : List Char}, (strtoulBody A neg s2).rest = [] → A ≠ [] →
      strtoulBody (A ++ '.' :: B) neg (s2 ++ '.' :: B) =
        ⟨(strtoulBody A neg s2).val, '.' :: B⟩ := by
  intro s2 h hA
  have hdot8 : ∀ c, ('.' :: B).head? = some c → isDigitIn 8 c = false := by
    intro c hc; injection hc with hc; subst hc; decide
  have hdot10 : ∀ c, ('.' :: B).head? = some c → isDigitIn 10 c = false := by
    intro c hc; injection hc with hc; subst hc; decide
  have hdot16 : ∀ c, ('.' :: B).head? = some c → isDigitIn 16 c = false := by
    intro c hc; injection hc with hc; subst hc; decide
  cases s2 with
  | nil =>
    simp only [strtoulBody] at h
    exact absurd h hA
  | cons c t =>
    simp only [List.cons_append]
    by_cases hc0 : c = '0'
    · subst hc0
      simp only [strtoulBody, if_true] at h ⊢
      cases t with
      | nil =>
        -- isolated "0": full conversion of value 0; in the appended string
        -- the dot cannot extend the octal digit run
        simp only [List.nil_append]
        have h0 : parseDigitsAux 8 ('.' :: B) 0 = (0, '.' :: B) :=
          @parseDigitsAux_append 8 [] 0 0 ('.' :: B) rfl hdot8
        simp [h0, strtoulFin]
      | cons x t2 =>
        dsimp only at h
        simp only [List.cons_append]
        by_cases hx : x = 'x' ∨ x = 'X'
        · simp only [if_pos hx] at h ⊢
          cases t2 with
          | nil =>
            simp only [strtoulFin] at h
            exact absurd h (by simp)
          | cons d t3 =>
            try simp only [List.cons_append] at h ⊢
            try dsimp only at h ⊢
            by_cases hd : isDigitIn 16 d = true
            · simp only [hd, if_true] at h ⊢
              simp only [strtoulFin] at h
              cases hp : parseDigitsAux 16 (d :: t3) 0 with
              | mk v r =>
                rw [hp] at h
                simp only at h
                subst h
                have hp' := @parseDigitsAux_append 16 (d :: t3) 0 v ('.' :: B) hp hdot16
                rw [show d :: (t3 ++ '.' :: B) = (d :: t3) ++ '.' :: B from rfl,
                  hp']
                simp [strtoulFin]
            · simp only [hd, Bool.false_eq_true, if_false] at h
              simp only [strtoulFin] at h
              exact absurd h (by simp)
        · simp only [if_neg hx] at h ⊢
          simp only [strtoulFin] at h
          cases hp : parseDigitsAux 8 (x :: t2) 0 with
          | mk v r =>
            rw [hp] at h
            simp only at h
            subst h
            have hp' := @parseDigitsAux_append 8 (x :: t2) 0 v ('.' :: B) hp hdot8
            rw [show x :: (t2 ++ '.' :: B) = (x :: t2) ++ '.' :: B from rfl,
              hp']
            simp [strtoulFin]
    · simp only [strtoulBody] at h ⊢
      simp only [if_neg hc0] at h ⊢
      by_cases hcd : isDigitIn 10 c = true
      · simp only [if_pos hcd] at h ⊢
        simp only [strtoulFin] at h
        cases hp : parseDigitsAux 10 (c :: t) 0 with
        | mk v r =>
          rw [hp] at h
          simp only at h
          subst h
          have hp' := @parseDigitsAux_append 10 (c :: t) 0 v ('.' :: B) hp hdot10
          rw [show c :: (t ++ '.' :: B) = (c :: t) ++ '.' :: B from rfl,
            hp']
          simp [strtoulFin]
      · simp only [if_neg hcd] at h ⊢
        exact absurd h hA

theorem sysgen_strtoul_append_dot {A B : List Char}
    (h : (sysgen_strtoul A).rest = []) :
    sysgen_strtoul (A ++ '.' :: B) = ⟨(sysgen_strtoul A).val, '.' :: B⟩ := by
  unfold sysgen_strtoul at h ⊢
  cases hA : A.dropWhile isSpaceC with
  | nil =>
    rw [hA] at h
    dsimp only at h
    have hAe : A = [] := by simpa [strtoulBody] using h
    subst hAe
    rfl
  | cons a t =>
    rw [hA] at h
    dsimp only at h
    have hne : A ≠ [] := by
      intro he
      subst he
      simp at hA
    rw [List.dropWhile_append, hA]
    simp only [List.isEmpty_cons, Bool.false_eq_true, if_false, List.cons_append]
    by_cases h1 : a = '-'
    · simp only [if_pos h1] at h ⊢
      exact strtoulBody_append_dot h hne
    · simp only [if_neg h1] at h ⊢
      by_cases h2 : a = '+'
      · simp only [if_pos h2] at h ⊢
        exact strtoulBody_append_dot h hne
      · simp only [if_neg h2] at h ⊢
        have := @strtoulBody_append_dot A false B (a :: t) h hne
        simpa using this

theorem digitVal_facts {c : Char} (h : isDigitIn 10 c = true) :
    digitVal c = c.toNat - 48 ∧ 48 ≤ c.toNat ∧ c.toNat ≤ 57 := by
  have h' : digitVal c < 10 := by simpa [isDigitIn] using h
  by_cases h1 : (48 ≤ c.toNat && c.toNat ≤ 57) = true
  · have h1' := h1
    simp only [Bool.and_eq_true, decide_eq_true_eq] at h1'
    refine ⟨?_, h1'.1, h1'.2⟩
    unfold digitVal
    rw [if_pos h1]
  · exfalso
    unfold digitVal at h'
    rw [if_neg h1] at h'
    split at h'
    · rename_i hc2
      simp only [Bool.and_eq_true, decide_eq_true_eq] at hc2
      omega
    · split at h'
      · rename_i hc3
        simp only [Bool.and_eq_true, decide_eq_true_eq] at hc3
        omega
      · omega

theorem parseDigitsAux_all_digits :
    ∀ {B : List Char} {acc : Nat}, (∀ c ∈ B, isDigitIn 10 c = true) →
      parseDigitsAux 10 B acc =
        (B.foldl (fun a c => a * 10 + (c.toNat - 48)) acc, []) := by
  intro B
  induction B with
  | nil => intro acc h; rfl
  | cons c t ih =>
    intro acc h
    have hc := h c (by simp)
    rw [parseDigitsAux, if_pos hc, List.foldl_cons, (digitVal_facts hc).1]
    exact ih (fun x hx => h x (List.mem_cons_of_mem c hx))

theorem decDigits_foldl_lt :
    ∀ (B : List Char) (acc : Nat), (∀ c ∈ B, isDigitIn 10 c = true) →
      B.foldl (fun a c => a * 10 + (c.toNat - 48)) acc < (acc + 1) * 10 ^ B.length := by
  intro B
  induction B with
  | nil => intro acc h; simp
  | cons c t ih =>
    intro acc h
    obtain ⟨-, hb1, hb2⟩ := digitVal_facts (h c (by simp))
    rw [List.foldl_cons]
    calc t.foldl (fun a c => a * 10 + (c.toNat - 48)) (acc * 10 + (c.toNat - 48)) <
        (acc * 10 + (c.toNat - 48) + 1) * 10 ^ t.length :=
          ih _ (fun x hx => h x (List.mem_cons_of_mem c hx))
      _ ≤ ((acc + 1) * 10) * 10 ^ t.length :=
          Nat.mul_le_mul_right _ (by omega)
      _ = (acc + 1) * 10 ^ (c :: t).length := by
          rw [List.length_cons, pow_succ]
          ring

theorem sysgen_strtoul_digits {B : List Char} (hne : B ≠ [])
    (hd : ∀ c ∈ B, isDigitIn 10 c = true) (h0 : B.head? ≠ some '0')
    (hlen : B.length ≤ 19) :
    sysgen_strtoul B = ⟨decDigits B, []⟩ := by
  cases B with
  | nil => exact absurd rfl hne
  | cons b t =>
    obtain ⟨-, hb1, hb2⟩ := digitVal_facts (hd b (by simp))
    have hsp : isSpaceC b = false := by
      simp only [isSpaceC, Bool.or_eq_false_iff, beq_eq_false_iff_ne, ne_eq]
      refine ⟨⟨⟨⟨⟨?_, ?_⟩, ?_⟩, ?_⟩, ?_⟩, ?_⟩ <;>
        (intro he; subst he; exact absurd hb1 (by decide))
    unfold sysgen_strtoul
    rw [List.dropWhile_cons, hsp]
    simp only [Bool.false_eq_true, if_false]
    have hminus : ¬(b = '-') := by
      intro he; subst he; exact absurd hb1 (by decide)
    have hplus : ¬(b = '+') := by
      intro he; subst he; exact absurd hb1 (by decide)
    rw [if_neg hminus, if_neg hplus]
    have hzero : ¬(b = '0') := by
      intro he
      subst he
      exact h0 rfl
    unfold strtoulBody
    dsimp only
    rw [if_neg hzero, if_pos (hd b (by simp))]
    rw [parseDigitsAux_all_digits hd]
    have hv : (b :: t).foldl (fun a c => a * 10 + (c.toNat - 48)) 0 < 2 ^ 64 := by
      have hlt := decDigits_foldl_lt (b :: t) 0 hd
      have hp : (10 : Nat) ^ (b :: t).length ≤ 10 ^ 19 :=
        Nat.pow_le_pow_right (by omega) hlen
      have h19 : (10 : Nat) ^ 19 < 2 ^ 64 := by norm_num
      omega
    simp only [strtoulFin, decDigits]
    rw [if_neg (by omega)]
    rfl

/-- C6 (amended): the console token is parsed by two `strtoul` calls, so the
integer before the separator may be empty (and in general is any prefix that
`strtoul` consumes entirely, including hex/octal forms): the command
succeeds whenever the first parse stops exactly at a dot and the remainder
is fully consumed by the second parse, writing only that after-dot value
(as an `unsigned int`) to the console field; in particular every token
`A.B` whose halves `strtoul` consumes entirely is accepted. A token that
`strtoul` cannot start to parse and that does not begin with a dot is
rejected, with no state change. -/
theorem C6_console_parse (st : SysgenState) (A B tok tok2 : List Char) :
    (∀ t, (sysgen_strtoul tok).rest = '.' :: t → (sysgen_strtoul t).rest = [] →
      sysgen_cmdConsole st [toL "console", tok] =
        some { st with console := (sysgen_strtoul t).val % 2 ^ 32 }) ∧
    ((sysgen_strtoul A).rest = [] → (sysgen_strtoul B).rest = [] →
      sysgen_cmdConsole st [toL "console", A ++ '.' :: B] =
        some { st with console := (sysgen_strtoul B).val % 2 ^ 32 }) ∧
    ((sysgen_strtoul tok2).rest = tok2 → tok2.head? ≠ some '.' →
      sysgen_cmdConsole st [toL "console", tok2] = none) := by
  have hgen : ∀ (tk t : List Char), (sysgen_strtoul tk).rest = '.' :: t →
      (sysgen_strtoul t).rest = [] →
      sysgen_cmdConsole st [toL "console", tk] =
        some { st with console := (sysgen_strtoul t).val % 2 ^ 32 } := by
    intro tk t h1 h2
    unfold sysgen_cmdConsole
    dsimp only
    rw [h1]
    split
    · rename_i t' heq
      injection heq with ha hb
      subst hb
      rw [if_pos h2]
    · rename_i hcon
      exact absurd rfl (hcon t)
  refine ⟨hgen tok, ?_, ?_⟩
  · intro hA hB
    have h1 := @sysgen_strtoul_append_dot A B hA
    exact hgen (A ++ '.' :: B) B (by rw [h1]) hB
  · intro ht hdot
    unfold sysgen_cmdConsole
    dsimp only
    rw [ht]
    split
    · exact absurd rfl hdot
    · rfl

/-- Witness for C6 (amended): `console 1.2` succeeds and stores 2 (first
parse stops at the dot, second consumes `2`); `console 5.` succeeds with an
empty after-dot integer and stores 0; `console abc` is rejected. -/
theorem C6_console_parse_witness :
    (sysgen_strtoul (toL "1.2")).rest = '.' :: toL "2" ∧
    (sysgen_strtoul (toL "2")).rest = [] ∧
    sysgen_cmdConsole (sysgen_init ⟨0, 0, 2048, 64, 48, 56⟩)
        [toL "console", toL "1.2"] =
      some { sysgen_init ⟨0, 0, 2048, 64, 48, 56⟩ with
        console := (sysgen_strtoul (toL "2")).val % 2 ^ 32 } ∧
    (sysgen_strtoul (toL "5")).rest = [] ∧
    (sysgen_strtoul ([] : List Char)).rest = [] ∧
    sysgen_cmdConsole (sysgen_init ⟨0, 0, 2048, 64, 48, 56⟩)
        [toL "console", toL "5" ++ '.' :: ([] : List Char)] =
      some { sysgen_init ⟨0, 0, 2048, 64, 48, 56⟩ with
        console := (sysgen_strtoul ([] : List Char)).val % 2 ^ 32 } ∧
    (sysgen_strtoul (toL "abc")).rest = toL "abc" ∧
    sysgen_cmdConsole (sysgen_init ⟨0, 0, 2048, 64, 48, 56⟩)
      [toL "console", toL "abc"] = none := by
  refine ⟨by decide, by decide, ?_, by decide, by decide, ?_, by decide, ?_⟩
  · exact (C6_console_parse (sysgen_init ⟨0, 0, 2048, 64, 48, 56⟩)
      (toL "5") ([] : List Char) (toL "1.2") (toL "abc")).1 (toL "2")
      (by decide) (by decide)
  · exact (C6_console_parse (sysgen_init ⟨0, 0, 2048, 64, 48, 56⟩)
      (toL "5") ([] : List Char) (toL "1.2") (toL "abc")).2.1
      (by decide) (by decide)
  · exact (C6_console_parse (sysgen_init ⟨0, 0, 2048, 64, 48, 56⟩)
      (toL "5") ([] : List Char) (toL "1.2") (toL "abc")).2.2
      (by decide) (by decide)

/-- Counterexample for C6 as stated: the token `.2` does not fully parse as
`<integer>.<integer>` (the integer before the separator is missing), yet the
console command accepts it and sets the console field to 2. -/
theorem C6_counterexample :
    sysgen_cmdConsole (sysgen_init ⟨0, 0, 2048, 64, 48, 56⟩)
        [toL "console", toL ".2"] =
      some { sysgen_init ⟨0, 0, 2048, 64, 48, 56⟩ with console := 2 } ∧
    specIntDotInt (toL ".2") = false := by decide

/-- C2 (amended): the app command takes a device token before the program
token (`app <device> <name;argv> <imaps> <dmaps>`), so Example 1's third
line must read `app flash0 app1 ocram ocram` (the 4-token form in the spec
is rejected, see the counterexample). With that line, processing the script
from the initial empty build state (load address 0, any capacity large
enough for the three records) succeeds and yields exactly one map with id 0
and exactly one program with instruction-map ids [0], data-map ids [0],
argv bytes `app1` plus terminator with no leading exec marker, start
0x1000 and end 0x1200 copied from the alias record. -/
theorem C2_example1 (cfg : SysgenConfig) (hpk : cfg.pkernel = 0)
    (hcap : alignAddr (alignAddr (alignAddr (alignAddr (alignAddr (alignAddr
        (alignAddr cfg.szSyspage 8 + cfg.szMap) 8 + 6) 8 + cfg.szProg) 8 + 1) 8
        + 1) 8 + 5) 8 < cfg.maxsz) :
    ∃ st, sysgen_parseScript cfg (sysgen_init cfg)
        [toL "alias app1 0x1000 0x200\n", toL "map ocram 0x0 0x10000 rwx\n",
         toL "app flash0 app1 ocram ocram\n"] = some st ∧
      (∃ m, st.maps = [m] ∧ m.id = 0) ∧
      (∃ p, st.progs = [p] ∧ p.imaps = [0] ∧ p.dmaps = [0] ∧
        p.argv = toL "app1" ++ ['\x00'] ∧ p.start = 0x1000 ∧ p.end_ = 0x1200) := by
  obtain ⟨pk, offs, maxsz, szS, szM, szP⟩ := cfg
  dsimp only at hpk hcap
  subst hpk
  have e1 := le_alignAddr8 (alignAddr szS 8 + szM)
  have e2 := le_alignAddr8 (alignAddr (alignAddr szS 8 + szM) 8 + 6)
  have e3 := le_alignAddr8 (alignAddr (alignAddr (alignAddr szS 8 + szM) 8 + 6) 8 + szP)
  have e4 := le_alignAddr8 (alignAddr (alignAddr (alignAddr (alignAddr szS 8 + szM) 8
    + 6) 8 + szP) 8 + 1)
  have e5 := le_alignAddr8 (alignAddr (alignAddr (alignAddr (alignAddr (alignAddr szS 8
    + szM) 8 + 6) 8 + szP) 8 + 1) 8 + 1)
  have e6 := le_alignAddr8 (alignAddr (alignAddr (alignAddr (alignAddr (alignAddr
    (alignAddr szS 8 + szM) 8 + 6) 8 + szP) 8 + 1) 8 + 1) 8 + 5)
  have hc1 : ¬(maxsz ≤ alignAddr (alignAddr szS 8 + szM) 8) := by omega
  have hc2 : ¬(maxsz ≤ alignAddr (alignAddr (alignAddr szS 8 + szM) 8 + 6) 8) := by
    omega
  have hc3 : ¬(maxsz ≤ alignAddr (alignAddr (alignAddr (alignAddr szS 8 + szM) 8
      + 6) 8 + szP) 8) := by omega
  have hc4 : ¬(maxsz ≤ alignAddr (alignAddr (alignAddr (alignAddr (alignAddr szS 8
      + szM) 8 + 6) 8 + szP) 8 + 1) 8) := by omega
  have hc5 : ¬(maxsz ≤ alignAddr (alignAddr (alignAddr (alignAddr (alignAddr
      (alignAddr szS 8 + szM) 8 + 6) 8 + szP) 8 + 1) 8 + 1) 8) := by omega
  have hc6 : ¬(maxsz ≤ alignAddr (alignAddr (alignAddr (alignAddr (alignAddr
      (alignAddr (alignAddr szS 8 + szM) 8 + 6) 8 + szP) 8 + 1) 8 + 1) 8 + 5) 8) := by
    omega
  have hrun2 : sysgen_runCmd ⟨0, offs, maxsz, szS, szM, szP⟩
      ⟨4608, alignAddr szS 8, 0, [], [], [⟨toL "app1", 4096, 512⟩]⟩
      [toL "map", toL "ocram", toL "0x0", toL "0x10000", toL "rwx"] =
      some ⟨4608, alignAddr (alignAddr (alignAddr szS 8 + szM) 8 + 6) 8, 0,
        [⟨0, toL "ocram", 0, 65536, 7⟩], [], [⟨toL "app1", 4096, 512⟩]⟩ := by
    unfold sysgen_runCmd
    dsimp only
    rw [if_neg (by decide), if_pos rfl]
    unfold sysgen_cmdMap
    dsimp only
    rw [if_neg (by decide), if_neg (by decide),
      show sysgen_strAttr2ui (toL "rwx") = some 7 from by decide]
    dsimp only
    rw [if_neg (by decide)]
    unfold sysgen_mapAdd sysgen_buffAlloc
    dsimp only
    rw [if_neg hc1]
    dsimp only
    rw [show (toL "ocram").length + 1 = 6 from rfl]
    rw [if_neg hc2]
    rfl
  have hrun3 : sysgen_runCmd ⟨0, offs, maxsz, szS, szM, szP⟩
      ⟨4608, alignAddr (alignAddr (alignAddr szS 8 + szM) 8 + 6) 8, 0,
        [⟨0, toL "ocram", 0, 65536, 7⟩], [], [⟨toL "app1", 4096, 512⟩]⟩
      [toL "app", toL "flash0", toL "app1", toL "ocram", toL "ocram"] =
      some ⟨4608,
        alignAddr (alignAddr (alignAddr (alignAddr (alignAddr (alignAddr
          (alignAddr szS 8 + szM) 8 + 6) 8 + szP) 8 + 1) 8 + 1) 8 + 5) 8,
        0, [⟨0, toL "ocram", 0, 65536, 7⟩],
        [⟨4096, 4608, [0], [0], toL "app1" ++ ['\x00']⟩],
        [⟨toL "app1", 4096, 512⟩]⟩ := by
    unfold sysgen_runCmd
    dsimp only
    rw [if_neg (by decide), if_neg (by decide), if_pos rfl]
    rw [show sysgen_cmdApp ⟨0, offs, maxsz, szS, szM, szP⟩
        ⟨4608, alignAddr (alignAddr (alignAddr szS 8 + szM) 8 + 6) 8, 0,
          [⟨0, toL "ocram", 0, 65536, 7⟩], [], [⟨toL "app1", 4096, 512⟩]⟩
        [toL "app", toL "flash0", toL "app1", toL "ocram", toL "ocram"] =
      sysgen_appAdd ⟨0, offs, maxsz, szS, szM, szP⟩
        ⟨4608, alignAddr (alignAddr (alignAddr szS 8 + szM) 8 + 6) 8, 0,
          [⟨0, toL "ocram", 0, 65536, 7⟩], [], [⟨toL "app1", 4096, 512⟩]⟩
        (toL "app1") (toL "ocram") (toL "ocram") (toL "app1") 0 from rfl]
    unfold sysgen_appAdd
    rw [show sysgen_aliasFind [⟨toL "app1", 4096, 512⟩] (toL "app1") =
      some ⟨toL "app1", 4096, 512⟩ from rfl]
    dsimp only
    unfold sysgen_buffAlloc
    dsimp only
    rw [if_neg hc3]
    dsimp only
    rw [show (sysgen_mapsParse (toL "ocram")).length = 1 from rfl]
    rw [if_neg hc4]
    dsimp only
    rw [if_neg hc5]
    dsimp only
    rw [show (if (0 &&& flagSyspageExec ≠ 0) then 1 else 0)
      + (toL "app1").length + 1 = 5 from rfl]
    rw [if_neg hc6]
    dsimp only
    rw [show sysgen_mapsAdd2Prog [⟨0, toL "ocram", 0, 65536, 7⟩]
        (sysgen_mapsParse (toL "ocram")) = some [0] from rfl]
    dsimp only
    rfl
  refine ⟨⟨4608,
    alignAddr (alignAddr (alignAddr (alignAddr (alignAddr (alignAddr
      (alignAddr szS 8 + szM) 8 + 6) 8 + szP) 8 + 1) 8 + 1) 8 + 5) 8,
    0, [⟨0, toL "ocram", 0, 65536, 7⟩],
    [⟨4096, 4608, [0], [0], toL "app1" ++ ['\x00']⟩],
    [⟨toL "app1", 4096, 512⟩]⟩, ?_, ⟨_, rfl, rfl⟩, ⟨_, rfl, rfl, rfl, rfl, rfl, rfl⟩⟩
  rw [sysgen_parseScript_cons, if_neg (by decide),
    show sysgen_parseArgLine (toL "alias app1 0x1000 0x200\n") =
      some [toL "alias", toL "app1", toL "0x1000", toL "0x200"] from by decide]
  dsimp only
  rw [show sysgen_runCmd ⟨0, offs, maxsz, szS, szM, szP⟩
      (sysgen_init ⟨0, offs, maxsz, szS, szM, szP⟩)
      [toL "alias", toL "app1", toL "0x1000", toL "0x200"] =
    some ⟨4608, alignAddr szS 8, 0, [], [], [⟨toL "app1", 4096, 512⟩]⟩ from rfl]
  dsimp only
  rw [sysgen_parseScript_cons, if_neg (by decide),
    show sysgen_parseArgLine (toL "map ocram 0x0 0x10000 rwx\n") =
      some [toL "map", toL "ocram", toL "0x0", toL "0x10000", toL "rwx"] from by decide]
  dsimp only
  rw [hrun2]
  dsimp only
  rw [sysgen_parseScript_cons, if_neg (by decide),
    show sysgen_parseArgLine (toL "app flash0 app1 ocram ocram\n") =
      some [toL "app", toL "flash0", toL "app1", toL "ocram", toL "ocram"] from by decide]
  dsimp only
  rw [hrun3]
  rfl

/-- Witness for C2 (amended) at a concrete configuration (load address 0,
capacity 2048, representative record sizes). -/
theorem C2_example1_witness :
    (⟨0, 0, 2048, 64, 48, 56⟩ : SysgenConfig).pkernel = 0 ∧
    alignAddr (alignAddr (alignAddr (alignAddr (alignAddr (alignAddr
        (alignAddr (⟨0, 0, 2048, 64, 48, 56⟩ : SysgenConfig).szSyspage 8 +
          (⟨0, 0, 2048, 64, 48, 56⟩ : SysgenConfig).szMap) 8 + 6) 8 +
        (⟨0, 0, 2048, 64, 48, 56⟩ : SysgenConfig).szProg) 8 + 1) 8 + 1) 8 + 5) 8 <
      (⟨0, 0, 2048, 64, 48, 56⟩ : SysgenConfig).maxsz ∧
    (∃ st, sysgen_parseScript ⟨0, 0, 2048, 64, 48, 56⟩
        (sysgen_init ⟨0, 0, 2048, 64, 48, 56⟩)
        [toL "alias app1 0x1000 0x200\n", toL "map ocram 0x0 0x10000 rwx\n",
         toL "app flash0 app1 ocram ocram\n"] = some st ∧
      (∃ m, st.maps = [m] ∧ m.id = 0) ∧
      (∃ p, st.progs = [p] ∧ p.imaps = [0] ∧ p.dmaps = [0] ∧
        p.argv = toL "app1" ++ ['\x00'] ∧ p.start = 0x1000 ∧ p.end_ = 0x1200)) :=
  ⟨rfl, by decide, C2_example1 ⟨0, 0, 2048, 64, 48, 56⟩ rfl (by decide)⟩

/-- Counterexample for C2 as stated: the literal Example 1 script, whose app
line has only four tokens (`app app1 ocram ocram`), aborts the run — the
app command requires a device token before the program token (argc 5 or 6),
so processing yields no build state at all rather than one map and one
program. -/
theorem C2_counterexample :
    sysgen_parseScript ⟨0, 0, 2048, 64, 48, 56⟩ (sysgen_init ⟨0, 0, 2048, 64, 48, 56⟩)
      [toL "alias app1 0x1000 0x200\n", toL "map ocram 0x0 0x10000 rwx\n",
       toL "app app1 ocram ocram\n"] = none := by decide
